import Mathlib

/-!
Verification development for the doogie CommonMark wrapper, capability design
(src/capabilities.rs, src/node.rs, src/resource.rs, src/errors.rs,
src/constants.rs) plus the enum-based `can_append_child` of src/lib.rs.

Shallow embedding conventions:
* Raw libcmark node pointers (`*mut CMarkNodePtr`) are natural numbers.
* An `Rc<CMarkNodeResource>` (a shared liveness cell) is a `CellIdx` into
  `SysState.cells`; equal indices model the same shared object.
* An `Rc<RefCell<ResourceManager>>` is a `MgrIdx` into `SysState.mgrs`.
* The foreign libcmark engine is a black box, modelled by the `Engine` record
  of uninterpreted functions; `Engine.iter p` is the sequence of node pointers
  yielded by `cmark_iter_new(p)` / `cmark_iter_next` / `cmark_iter_get_node`
  before the `Done` event.
* C strings returned by the engine are `Option String` (`none` = NULL pointer).
  `CStr::from_ptr` applied to a NULL pointer is undefined behaviour; operations
  that can reach it return `Option (Except DoogieError α)` with outer `none`
  marking that undefined execution.  Lean `String`s are always valid UTF-8, so
  the `Utf8Error` branch of `to_str()?` is unreachable in the model.
-/

/-- Decidable equality for `Except`, used to evaluate results on concrete
inputs. -/
instance {ε α : Type} [DecidableEq ε] [DecidableEq α] : DecidableEq (Except ε α) :=
  fun x y =>
    match x, y with
    | .ok a, .ok b =>
        if h : a = b then .isTrue (congrArg Except.ok h)
        else .isFalse (fun hh => h (by injection hh))
    | .ok _, .error _ => .isFalse (fun hh => Except.noConfusion hh)
    | .error _, .ok _ => .isFalse (fun hh => Except.noConfusion hh)
    | .error a, .error b =>
        if h : a = b then .isTrue (congrArg Except.error h)
        else .isFalse (fun hh => h (by injection hh))

namespace Doogie

/-- Raw libcmark node pointer. -/
abbrev Handle := Nat

/-- Index of a shared `CMarkNodeResource` cell into `SysState.cells`. -/
abbrev CellIdx := Nat

/-- Index of a shared `ResourceManager` into `SysState.mgrs`. -/
abbrev MgrIdx := Nat

/-- `pointer as u32`: the identity key used by the registry
(src/resource.rs, `CMarkNodeResource::new` and `resource_for`). -/
def toId (p : Handle) : Nat := p % 4294967296

/-- The error enum of src/errors.rs.  Payloads that carry no information
relevant to the registry model (`NulError`, `Utf8Error`, `IOError`,
`FmtError`) are dropped. -/
inductive DoogieError where
  | nulError
  | utf8Error
  | returnCode (code : Nat)
  | badEnum (v : Nat)
  | ioError
  | resourceUnavailable
  | nodeNone
  | fmtError
deriving DecidableEq, Repr

/-- The 21-value node-type enum of src/constants.rs. -/
inductive NodeType where
  | CMarkNodeNone
  | CMarkNodeDocument
  | CMarkNodeBlockQuote
  | CMarkNodeList
  | CMarkNodeItem
  | CMarkNodeCodeBlock
  | CMarkNodeHtmlBlock
  | CMarkNodeCustomBlock
  | CMarkNodeParagraph
  | CMarkNodeHeading
  | CMarkNodeThematicBreak
  | CMarkNodeText
  | CMarkNodeSoftbreak
  | CMarkNodeLinebreak
  | CMarkNodeCode
  | CMarkNodeHtmlInline
  | CMarkNodeCustomInline
  | CMarkNodeEmph
  | CMarkNodeStrong
  | CMarkNodeLink
  | CMarkNodeImage
deriving DecidableEq, Repr, Fintype

/-- `TryFrom<u32> for NodeType` (src/constants.rs). -/
def NodeType.try_from (original : Nat) : Except DoogieError NodeType :=
  match original with
  | 0 => .ok .CMarkNodeNone
  | 1 => .ok .CMarkNodeDocument
  | 2 => .ok .CMarkNodeBlockQuote
  | 3 => .ok .CMarkNodeList
  | 4 => .ok .CMarkNodeItem
  | 5 => .ok .CMarkNodeCodeBlock
  | 6 => .ok .CMarkNodeHtmlBlock
  | 7 => .ok .CMarkNodeCustomBlock
  | 8 => .ok .CMarkNodeParagraph
  | 9 => .ok .CMarkNodeHeading
  | 10 => .ok .CMarkNodeThematicBreak
  | 11 => .ok .CMarkNodeText
  | 12 => .ok .CMarkNodeSoftbreak
  | 13 => .ok .CMarkNodeLinebreak
  | 14 => .ok .CMarkNodeCode
  | 15 => .ok .CMarkNodeHtmlInline
  | 16 => .ok .CMarkNodeCustomInline
  | 17 => .ok .CMarkNodeEmph
  | 18 => .ok .CMarkNodeStrong
  | 19 => .ok .CMarkNodeLink
  | 20 => .ok .CMarkNodeImage
  | i => .error (.badEnum i)

/-- The list-type enum of src/constants.rs. -/
inductive ListType where
  | CMarkNoList
  | CMarkBulletList
  | CMarkOrderedList
deriving DecidableEq, Repr

/-- `TryFrom<u32> for ListType` (src/constants.rs). -/
def ListType.try_from (original : Nat) : Except DoogieError ListType :=
  match original with
  | 0 => .ok .CMarkNoList
  | 1 => .ok .CMarkBulletList
  | 2 => .ok .CMarkOrderedList
  | i => .error (.badEnum i)

/-- The delimiter-type enum of src/constants.rs. -/
inductive DelimType where
  | CMarkNoDelim
  | CMarkPeriodDelim
  | CMarkParenDelim
deriving DecidableEq, Repr

/-- `TryFrom<u32> for DelimType` (src/constants.rs). -/
def DelimType.try_from (original : Nat) : Except DoogieError DelimType :=
  match original with
  | 0 => .ok .CMarkNoDelim
  | 1 => .ok .CMarkPeriodDelim
  | 2 => .ok .CMarkParenDelim
  | i => .error (.badEnum i)

/-- `CMarkNodeResource` (src/lib.rs declaration, src/resource.rs impl):
identity plus the mutable optional handle (`None` = freed). -/
structure CMarkNodeResource where
  id : Nat
  node_pointer : Option Handle
deriving DecidableEq, Repr

/-- `ResourceManager` of src/resource.rs: a map from handle identity (u32) to
the shared cell tracked under that identity, modelled as an association list
with distinct keys. -/
structure ResourceManager where
  resources : List (Nat × CellIdx)
deriving DecidableEq, Repr

/-- Global state: the heap of shared `CMarkNodeResource` cells and the heap of
shared `ResourceManager` registries. -/
structure SysState where
  cells : List CMarkNodeResource
  mgrs : List ResourceManager
deriving DecidableEq, Repr

/-- The foreign libcmark engine, as an abstract record of primitives
(the `extern "C"` blocks of the source). -/
structure Engine where
  iter : Handle → List Handle
  literal : Handle → Option String
  type_of : Handle → Nat
  type_string : Handle → Option String
  start_line : Handle → Nat
  start_column : Handle → Nat
  list_type : Handle → Nat
  list_delim : Handle → Nat
  heading_level : Handle → Nat
  url : Handle → Option String
  title : Handle → Option String
  fence_info : Handle → Option String
  set_literal : Handle → String → Nat
  set_fence_info_code : Handle → String → Nat
  append_child_code : Handle → Handle → Nat
  next : Handle → Option Handle
  prev : Handle → Option Handle
  parent : Handle → Option Handle
  first_child : Handle → Option Handle
  last_child : Handle → Option Handle
  render_commonmark_text : Handle → String
  render_xml_text : Handle → String
  new_node : Nat → Handle

/-- Value of `cells[i].node_pointer`, `none` when out of range. -/
def cellsPtr : List CMarkNodeResource → Nat → Option Handle
  | [], _ => none
  | c :: _, 0 => c.node_pointer
  | _ :: cs, n + 1 => cellsPtr cs n

/-- `cells[i]` with a default, used where the source dereferences an `Rc`
that is always live. -/
def cellsGet : List CMarkNodeResource → Nat → CMarkNodeResource
  | [], _ => ⟨0, none⟩
  | c :: _, 0 => c
  | _ :: cs, n + 1 => cellsGet cs n

/-- Overwrite `node_pointer` at position `i` with `none`
(the effect of `pointer.take()` on the cell). -/
def clearCell : List CMarkNodeResource → Nat → List CMarkNodeResource
  | [], _ => []
  | c :: cs, 0 => ⟨c.id, none⟩ :: cs
  | c :: cs, n + 1 => c :: clearCell cs n

/-- The optional handle held by cell `rc`. -/
def SysState.ptrOf (st : SysState) (rc : CellIdx) : Option Handle :=
  cellsPtr st.cells rc

/-- The registry at index `m` (an always-live `Rc`; default is empty). -/
def getIdx : List ResourceManager → Nat → ResourceManager
  | [], _ => ⟨[]⟩
  | x :: _, 0 => x
  | _ :: rest, n + 1 => getIdx rest n

/-- Replace the registry at index `i`. -/
def setIdx : List ResourceManager → Nat → ResourceManager → List ResourceManager
  | [], _, _ => []
  | _ :: rest, 0, x => x :: rest
  | y :: rest, n + 1, x => y :: setIdx rest n x

/-- The registry referenced by `m`. -/
def SysState.mgrAt (st : SysState) (m : MgrIdx) : ResourceManager :=
  getIdx st.mgrs m

/-- `HashMap::get` on the association list. -/
def mapLookup : List (Nat × CellIdx) → Nat → Option CellIdx
  | [], _ => none
  | (k1, v) :: rest, k => if k1 = k then some v else mapLookup rest k

/-- `HashMap::insert` on the association list (replaces the entry for an
existing key, appends a fresh key). -/
def mapInsert : List (Nat × CellIdx) → Nat → CellIdx → List (Nat × CellIdx)
  | [], k, v => [(k, v)]
  | (k1, v1) :: rest, k, v =>
    if k1 = k then (k, v) :: rest else (k1, v1) :: mapInsert rest k v

/-- `HashMap::remove` on the association list. -/
def mapErase : List (Nat × CellIdx) → Nat → List (Nat × CellIdx)
  | [], _ => []
  | (k1, v1) :: rest, k => if k1 = k then rest else (k1, v1) :: mapErase rest k

/-- The keys of the association list. -/
def mapKeys (m : List (Nat × CellIdx)) : List Nat := m.map Prod.fst

/-- `CapabilityFactory` (src/capabilities.rs): which builder closures are
configured.  The closures close over nothing, so presence is all that the
struct carries. -/
structure CapabilityFactory where
  getter_builder : Bool
  setter_builder : Bool
  destructor_builder : Bool
  traverser_builder : Bool
  mutator_builder : Bool
  renderer_builder : Bool
deriving DecidableEq, Repr, Fintype

/-- `CapabilityFactory::new`. -/
def CapabilityFactory.new : CapabilityFactory :=
  ⟨false, false, false, false, false, false⟩

/-- `CapabilityFactory::with_getter`. -/
def CapabilityFactory.with_getter (f : CapabilityFactory) : CapabilityFactory :=
  { f with getter_builder := true }

/-- `CapabilityFactory::with_setter`. -/
def CapabilityFactory.with_setter (f : CapabilityFactory) : CapabilityFactory :=
  { f with setter_builder := true }

/-- `CapabilityFactory::with_destructor`. -/
def CapabilityFactory.with_destructor (f : CapabilityFactory) : CapabilityFactory :=
  { f with destructor_builder := true }

/-- `CapabilityFactory::with_traverser`. -/
def CapabilityFactory.with_traverser (f : CapabilityFactory) : CapabilityFactory :=
  { f with traverser_builder := true }

/-- `CapabilityFactory::with_renderer`. -/
def CapabilityFactory.with_renderer (f : CapabilityFactory) : CapabilityFactory :=
  { f with renderer_builder := true }

/-- `CapabilityFactory::with_mutator`. -/
def CapabilityFactory.with_mutator (f : CapabilityFactory) : CapabilityFactory :=
  { f with mutator_builder := true }

/-- `CapabilityFactory::with_all`. -/
def CapabilityFactory.with_all (f : CapabilityFactory) : CapabilityFactory :=
  f.with_destructor.with_renderer.with_getter.with_setter.with_traverser.with_mutator

/-- `CapabilityFactory::make_child_factory`: replicate everything configured
except the destructor. -/
def CapabilityFactory.make_child_factory (f : CapabilityFactory) : CapabilityFactory :=
  let factory := CapabilityFactory.new
  let factory := if f.getter_builder then factory.with_getter else factory
  let factory := if f.setter_builder then factory.with_setter else factory
  let factory := if f.traverser_builder then factory.with_traverser else factory
  let factory := if f.mutator_builder then factory.with_mutator else factory
  let factory := if f.renderer_builder then factory.with_renderer else factory
  factory

/-- `NodeGetter`: holds its `NodeResource`. -/
structure NodeGetter where
  resource : CellIdx
deriving DecidableEq, Repr

/-- `NodeSetter`: holds its `NodeResource`. -/
structure NodeSetter where
  resource : CellIdx
deriving DecidableEq, Repr

/-- `NodeDestructor`: holds its `NodeResource` and the shared registry. -/
structure NodeDestructor where
  resource : CellIdx
  manager : MgrIdx
deriving DecidableEq, Repr

/-- `NodeTraverser`: resource, shared registry, and the derived child factory
it was built with. -/
structure NodeTraverser where
  resource : CellIdx
  manager : MgrIdx
  cap_factory : CapabilityFactory
deriving DecidableEq, Repr

/-- `StructuralMutator`: resource, shared registry, and the derived child
factory it was built with. -/
structure StructuralMutator where
  resource : CellIdx
  manager : MgrIdx
  cap_factory : CapabilityFactory
deriving DecidableEq, Repr

/-- `NodeRenderer`: holds its `NodeResource`. -/
structure NodeRenderer where
  resource : CellIdx
deriving DecidableEq, Repr

/-- `NodeCapabilities`: the optional capability bundle of one `Node`. -/
structure NodeCapabilities where
  get : Option NodeGetter
  set : Option NodeSetter
  traverse : Option NodeTraverser
  destruct : Option NodeDestructor
  mutate : Option StructuralMutator
  render : Option NodeRenderer
deriving DecidableEq, Repr

/-- `Node`: the public object bundling its capabilities. -/
structure Node where
  capabilities : NodeCapabilities
deriving DecidableEq, Repr

/-- `CapabilityFactory::build`: instantiate exactly the configured subset,
wiring traverser and mutator to `make_child_factory`. -/
def CapabilityFactory.build (f : CapabilityFactory) (resource : CellIdx)
    (manager : MgrIdx) : NodeCapabilities :=
  { get := if f.getter_builder then some ⟨resource⟩ else none
    set := if f.setter_builder then some ⟨resource⟩ else none
    traverse :=
      if f.traverser_builder then some ⟨resource, manager, f.make_child_factory⟩ else none
    destruct := if f.destructor_builder then some ⟨resource, manager⟩ else none
    mutate :=
      if f.mutator_builder then some ⟨resource, manager, f.make_child_factory⟩ else none
    render := if f.renderer_builder then some ⟨resource⟩ else none }

/-- The capability factory governing a node reached after `n` navigation steps
from a node whose capabilities were built by `f`: each traverser/mutator step
builds neighbours with its stored `cap_factory`, which is the
`make_child_factory` of the factory that built the current node. -/
def navFactory (f : CapabilityFactory) : Nat → CapabilityFactory
  | 0 => f
  | n + 1 => (navFactory f n).make_child_factory

/-- `NodeIterator` (src/node.rs): the engine iterator handle is abstracted to
the root node handle it was opened on. -/
structure NodeIterator where
  iter_p : Option Handle
  manager : MgrIdx
  capability_factory : CapabilityFactory
deriving DecidableEq, Repr

/-- `NodeTraverser::iter` (src/capabilities.rs): derive the child factory,
strip the destructor builder, and open an engine iterator when the resource is
still valid. -/
def NodeTraverser.iter (st : SysState) (t : NodeTraverser) : NodeIterator :=
  let c := t.cap_factory.make_child_factory
  let capabilities : CapabilityFactory := { c with destructor_builder := false }
  match st.ptrOf t.resource with
  | some p => ⟨some p, t.manager, capabilities⟩
  | none => ⟨none, t.manager, capabilities⟩

/-- `ResourceManager::resource_for` (src/resource.rs): return the tracked cell
for the pointer identity, or allocate, register and return a fresh cell
wrapping `Some(pointer)`. -/
def resource_for (st : SysState) (m : MgrIdx) (node_pointer : Handle) :
    SysState × CellIdx :=
  let id := toId node_pointer
  match mapLookup (st.mgrAt m).resources id with
  | some ci => (st, ci)
  | none =>
      let ci := st.cells.length
      ({ cells := st.cells ++ [⟨id, some node_pointer⟩]
         mgrs := setIdx st.mgrs m ⟨mapInsert (st.mgrAt m).resources id ci⟩ }, ci)

/-- `ResourceManager::track_resource`: register a cell under its own `id`. -/
def track_resource (st : SysState) (m : MgrIdx) (rc : CellIdx) : SysState :=
  { st with
    mgrs := setIdx st.mgrs m
      ⟨mapInsert (st.mgrAt m).resources (cellsGet st.cells rc).id rc⟩ }

/-- `ResourceManager::absorb`: drain every entry of `other` into `m`. -/
def absorb (st : SysState) (m other : MgrIdx) : SysState :=
  let merged :=
    (st.mgrAt other).resources.foldl
      (fun acc kv => mapInsert acc kv.1 kv.2) (st.mgrAt m).resources
  { st with mgrs := setIdx (setIdx st.mgrs m ⟨merged⟩) other ⟨[]⟩ }

/-- One step of the walk in `ResourceManager::invalidate_resource`: if the
visited pointer is tracked, clear its cell — unless that cell is the very
`resource` being invalidated, whose `RefCell` is still immutably borrowed by
the enclosing `if let`, so `try_borrow_mut` fails and the walk skips it. -/
def invalidate_step (mgr : ResourceManager) (rc : CellIdx)
    (cells : List CMarkNodeResource) (current_p : Handle) :
    List CMarkNodeResource :=
  match mapLookup mgr.resources (toId current_p) with
  | some ci => if ci = rc then cells else clearCell cells ci
  | none => cells

/-- `ResourceManager::invalidate_resource` (src/resource.rs): walk the engine
iteration of the subtree rooted at the resource's handle, clearing every
tracked visited cell, then clear the resource's own cell. -/
def invalidate_resource (e : Engine) (st : SysState) (m : MgrIdx) (rc : CellIdx) :
    SysState :=
  let mgr := st.mgrAt m
  let cells1 :=
    match st.ptrOf rc with
    | some p => (e.iter p).foldl (invalidate_step mgr rc) st.cells
    | none => st.cells
  { st with cells := clearCell cells1 rc }

/-- One step of the walk in `ResourceManager::prune`: remove the visited
pointer's entry from the old registry (if tracked) and track the same cell in
the new registry under the cell's own `id`. -/
def prune_step (cells : List CMarkNodeResource)
    (pr : ResourceManager × ResourceManager) (node_ptr : Handle) :
    ResourceManager × ResourceManager :=
  let id := toId node_ptr
  match mapLookup pr.1.resources id with
  | some ci =>
      (⟨mapErase pr.1.resources id⟩,
       ⟨mapInsert pr.2.resources (cellsGet cells ci).id ci⟩)
  | none => pr

/-- `ResourceManager::prune` (src/resource.rs): move every tracked resource of
the engine-iterated subtree into a freshly allocated registry, returned by
index.  An invalid resource yields a new empty registry and leaves the old
registry untouched. -/
def prune (e : Engine) (st : SysState) (m : MgrIdx) (rc : CellIdx) :
    SysState × MgrIdx :=
  let newIdx := st.mgrs.length
  match st.ptrOf rc with
  | some p =>
      let pr := (e.iter p).foldl (prune_step st.cells) (st.mgrAt m, ⟨[]⟩)
      ({ st with mgrs := setIdx st.mgrs m pr.1 ++ [pr.2] }, newIdx)
  | none => ({ st with mgrs := st.mgrs ++ [⟨[]⟩] }, newIdx)

/-- `NodeDestructor::free` (src/node.rs): read the optional handle, invalidate
the resource through the registry, then call the engine free primitive only if
a handle had been present.  The returned list is the sequence of
`cmark_node_free` calls made. -/
def NodeDestructor.free (e : Engine) (st : SysState) (d : NodeDestructor) :
    SysState × List Handle :=
  let node_p := st.ptrOf d.resource
  let st1 := invalidate_resource e st d.manager d.resource
  match node_p with
  | some p => (st1, [p])
  | none => (st1, [])

/-- `Drop for Node` (src/node.rs): run the destructor capability if present. -/
def Node.drop (e : Engine) (st : SysState) (n : Node) : SysState × List Handle :=
  match n.capabilities.destruct with
  | some d => NodeDestructor.free e st d
  | none => (st, [])

/-- `NodeFactory::build` (src/node.rs): ask the engine for a fresh node of the
given type, allocate a fresh registry, track the pointer and build a node. -/
def NodeFactory.build (e : Engine) (st : SysState) (capability_factory : CapabilityFactory)
    (node_type : Nat) : SysState × Node :=
  let node_ptr := e.new_node node_type
  let m := st.mgrs.length
  let st1 : SysState := { st with mgrs := st.mgrs ++ [⟨[]⟩] }
  let pr := resource_for st1 m node_ptr
  (pr.1, ⟨capability_factory.build pr.2 m⟩)

/-- `NodeGetter::get_content`: the only text getter that checks the engine
result for NULL, normalising it to `Ok(String::new())`. -/
def NodeGetter.get_content (e : Engine) (st : SysState) (g : NodeGetter) :
    Option (Except DoogieError String) :=
  match st.ptrOf g.resource with
  | some p =>
      match e.literal p with
      | none => some (.ok "")
      | some s => some (.ok s)
  | none => some (.error .resourceUnavailable)

/-- `NodeGetter::get_type`. -/
def NodeGetter.get_type (e : Engine) (st : SysState) (g : NodeGetter) :
    Except DoogieError NodeType :=
  match st.ptrOf g.resource with
  | some p => NodeType.try_from (e.type_of p)
  | none => .error .resourceUnavailable

/-- `NodeGetter::get_type_string`: passes the engine pointer straight to
`CStr::from_ptr` with no NULL check; a NULL result is undefined behaviour,
modelled by the outer `none`. -/
def NodeGetter.get_type_string (e : Engine) (st : SysState) (g : NodeGetter) :
    Option (Except DoogieError String) :=
  match st.ptrOf g.resource with
  | some p =>
      match e.type_string p with
      | some s => some (.ok s)
      | none => none
  | none => some (.error .resourceUnavailable)

/-- `NodeGetter::get_start_line`. -/
def NodeGetter.get_start_line (e : Engine) (st : SysState) (g : NodeGetter) :
    Except DoogieError Nat :=
  match st.ptrOf g.resource with
  | some p => .ok (e.start_line p)
  | none => .error .resourceUnavailable

/-- `NodeGetter::get_start_column`. -/
def NodeGetter.get_start_column (e : Engine) (st : SysState) (g : NodeGetter) :
    Except DoogieError Nat :=
  match st.ptrOf g.resource with
  | some p => .ok (e.start_column p)
  | none => .error .resourceUnavailable

/-- `NodeGetter::get_id`: `Ok(p as u32)`. -/
def NodeGetter.get_id (st : SysState) (g : NodeGetter) : Except DoogieError Nat :=
  match st.ptrOf g.resource with
  | some p => .ok (toId p)
  | none => .error .resourceUnavailable

/-- `NodeGetter::get_list_type`. -/
def NodeGetter.get_list_type (e : Engine) (st : SysState) (g : NodeGetter) :
    Except DoogieError ListType :=
  match st.ptrOf g.resource with
  | some p => ListType.try_from (e.list_type p)
  | none => .error .resourceUnavailable

/-- `NodeGetter::get_delim_type`. -/
def NodeGetter.get_delim_type (e : Engine) (st : SysState) (g : NodeGetter) :
    Except DoogieError DelimType :=
  match st.ptrOf g.resource with
  | some p => DelimType.try_from (e.list_delim p)
  | none => .error .resourceUnavailable

/-- `NodeGetter::get_heading_level`. -/
def NodeGetter.get_heading_level (e : Engine) (st : SysState) (g : NodeGetter) :
    Except DoogieError Nat :=
  match st.ptrOf g.resource with
  | some p => .ok (e.heading_level p)
  | none => .error .resourceUnavailable

/-- `NodeGetter::get_url`: no NULL check before `CStr::from_ptr`. -/
def NodeGetter.get_url (e : Engine) (st : SysState) (g : NodeGetter) :
    Option (Except DoogieError String) :=
  match st.ptrOf g.resource with
  | some p =>
      match e.url p with
      | some s => some (.ok s)
      | none => none
  | none => some (.error .resourceUnavailable)

/-- `NodeGetter::get_title`: no NULL check before `CStr::from_ptr`. -/
def NodeGetter.get_title (e : Engine) (st : SysState) (g : NodeGetter) :
    Option (Except DoogieError String) :=
  match st.ptrOf g.resource with
  | some p =>
      match e.title p with
      | some s => some (.ok s)
      | none => none
  | none => some (.error .resourceUnavailable)

/-- `NodeGetter::get_fence_info`: no NULL check before `CStr::from_ptr`. -/
def NodeGetter.get_fence_info (e : Engine) (st : SysState) (g : NodeGetter) :
    Option (Except DoogieError String) :=
  match st.ptrOf g.resource with
  | some p =>
      match e.fence_info p with
      | some s => some (.ok s)
      | none => none
  | none => some (.error .resourceUnavailable)

/-- `NodeSetter::set_content`: `CString::new` rejects embedded NUL bytes,
then any non-`1` engine code becomes `ReturnCode`. -/
def NodeSetter.set_content (e : Engine) (st : SysState) (ns : NodeSetter)
    (content : String) : Except DoogieError Nat :=
  match st.ptrOf ns.resource with
  | some p =>
      if content.toList.contains (Char.ofNat 0) then .error .nulError
      else
        match e.set_literal p content with
        | 1 => .ok 1
        | i => .error (.returnCode i)
  | none => .error .resourceUnavailable

/-- `NodeSetter::set_fence_info`. -/
def NodeSetter.set_fence_info (e : Engine) (st : SysState) (ns : NodeSetter)
    (info : String) : Except DoogieError Nat :=
  match st.ptrOf ns.resource with
  | some p =>
      if info.toList.contains (Char.ofNat 0) then .error .nulError
      else
        match e.set_fence_info_code p info with
        | 1 => .ok 1
        | i => .error (.returnCode i)
  | none => .error .resourceUnavailable

/-- `NodeTraverser::next_sibling`: mint (or reuse) a resource for the
neighbouring handle and build a node with the stored child factory. -/
def NodeTraverser.next_sibling (e : Engine) (st : SysState) (t : NodeTraverser) :
    SysState × Except DoogieError (Option Node) :=
  match st.ptrOf t.resource with
  | some p =>
      match e.next p with
      | none => (st, .ok none)
      | some q =>
          let pr := resource_for st t.manager q
          (pr.1, .ok (some ⟨t.cap_factory.build pr.2 t.manager⟩))
  | none => (st, .error .resourceUnavailable)

/-- `NodeTraverser::prev_sibling`. -/
def NodeTraverser.prev_sibling (e : Engine) (st : SysState) (t : NodeTraverser) :
    SysState × Except DoogieError (Option Node) :=
  match st.ptrOf t.resource with
  | some p =>
      match e.prev p with
      | none => (st, .ok none)
      | some q =>
          let pr := resource_for st t.manager q
          (pr.1, .ok (some ⟨t.cap_factory.build pr.2 t.manager⟩))
  | none => (st, .error .resourceUnavailable)

/-- `NodeTraverser::parent`. -/
def NodeTraverser.parent (e : Engine) (st : SysState) (t : NodeTraverser) :
    SysState × Except DoogieError (Option Node) :=
  match st.ptrOf t.resource with
  | some p =>
      match e.parent p with
      | none => (st, .ok none)
      | some q =>
          let pr := resource_for st t.manager q
          (pr.1, .ok (some ⟨t.cap_factory.build pr.2 t.manager⟩))
  | none => (st, .error .resourceUnavailable)

/-- `NodeTraverser::first_child`. -/
def NodeTraverser.first_child (e : Engine) (st : SysState) (t : NodeTraverser) :
    SysState × Except DoogieError (Option Node) :=
  match st.ptrOf t.resource with
  | some p =>
      match e.first_child p with
      | none => (st, .ok none)
      | some q =>
          let pr := resource_for st t.manager q
          (pr.1, .ok (some ⟨t.cap_factory.build pr.2 t.manager⟩))
  | none => (st, .error .resourceUnavailable)

/-- `NodeTraverser::last_child`. -/
def NodeTraverser.last_child (e : Engine) (st : SysState) (t : NodeTraverser) :
    SysState × Except DoogieError (Option Node) :=
  match st.ptrOf t.resource with
  | some p =>
      match e.last_child p with
      | none => (st, .ok none)
      | some q =>
          let pr := resource_for st t.manager q
          (pr.1, .ok (some ⟨t.cap_factory.build pr.2 t.manager⟩))
  | none => (st, .error .resourceUnavailable)

/-- `NodeTraverser::itself`. -/
def NodeTraverser.itself (st : SysState) (t : NodeTraverser) :
    SysState × Except DoogieError Node :=
  match st.ptrOf t.resource with
  | some p =>
      let pr := resource_for st t.manager p
      (pr.1, .ok ⟨t.cap_factory.build pr.2 t.manager⟩)
  | none => (st, .error .resourceUnavailable)

/-- `StructuralMutator::consolidate_text_nodes`: the engine mutation touches
only the foreign tree, not the registry state. -/
def StructuralMutator.consolidate_text_nodes (st : SysState)
    (sm : StructuralMutator) : Except DoogieError Unit :=
  match st.ptrOf sm.resource with
  | some _ => .ok ()
  | none => .error .resourceUnavailable

/-- Result of `StructuralMutator::unlink`, with the flag recording whether the
engine detach primitive `cmark_node_unlink` was reached. -/
structure UnlinkResult where
  state : SysState
  newMgr : MgrIdx
  node : Node
  engineUnlinkCalled : Bool
deriving DecidableEq, Repr

/-- `StructuralMutator::unlink` (src/capabilities.rs): detach via the engine
only when the resource is valid, prune the registry, and return a node over
the same resource bound to the pruned-out registry. -/
def StructuralMutator.unlink (e : Engine) (st : SysState) (sm : StructuralMutator) :
    UnlinkResult :=
  let engineUnlinkCalled := (st.ptrOf sm.resource).isSome
  let pr := prune e st sm.manager sm.resource
  let capabilities := sm.cap_factory.build sm.resource pr.2
  ⟨pr.1, pr.2, ⟨capabilities⟩, engineUnlinkCalled⟩

/-- The `Except`-view of `unlink`: the source function returns a plain `Node`
(its type admits no error), so every run is `Except.ok`. -/
def StructuralMutator.unlinkE (e : Engine) (st : SysState) (sm : StructuralMutator) :
    Except DoogieError UnlinkResult :=
  .ok (StructuralMutator.unlink e st sm)

/-- `StructuralMutator::append_child` (src/capabilities.rs): require the child
to hold a mutator, both resources valid, then consult the engine; on its
success code `1` absorb the child's registry, re-track the child pointer and
rebuild the child under the parent's factory and registry.  On every error
path the returned state is the input state unchanged. -/
def StructuralMutator.append_child (e : Engine) (st : SysState)
    (sm : StructuralMutator) (child : Node) :
    SysState × Except DoogieError Node :=
  match child.capabilities.mutate with
  | none => (st, .error .resourceUnavailable)
  | some cm =>
      match st.ptrOf cm.resource with
      | none => (st, .error .resourceUnavailable)
      | some child_p =>
          match st.ptrOf sm.resource with
          | none => (st, .error .resourceUnavailable)
          | some parent_p =>
              match e.append_child_code parent_p child_p with
              | 1 =>
                  let st1 := absorb st sm.manager cm.manager
                  let pr := resource_for st1 sm.manager child_p
                  (pr.1, .ok ⟨sm.cap_factory.build pr.2 sm.manager⟩)
              | code => (st, .error (.returnCode code))

/-- `NodeRenderer::render_commonmark`: infallible; an invalid resource renders
to the empty string.  The source takes `&self` only, so no registry or cell
state can change. -/
def NodeRenderer.render_commonmark (e : Engine) (st : SysState) (r : NodeRenderer) :
    String :=
  match st.ptrOf r.resource with
  | some node_pointer => e.render_commonmark_text node_pointer
  | none => ""

/-- `NodeRenderer::render_xml`. -/
def NodeRenderer.render_xml (e : Engine) (st : SysState) (r : NodeRenderer) :
    String :=
  match st.ptrOf r.resource with
  | some node_pointer => e.render_xml_text node_pointer
  | none => ""

/-- The 20 variants of the enum-based `Node` of src/lib.rs (it has no `None`
variant: `Node::new` refuses `CMarkNodeNone`). -/
inductive NodeVariant where
  | Document
  | BlockQuote
  | List
  | Item
  | CodeBlock
  | HtmlBlock
  | CustomBlock
  | Paragraph
  | Heading
  | ThematicBreak
  | Text
  | SoftBreak
  | LineBreak
  | Code
  | HtmlInline
  | CustomInline
  | Emph
  | Strong
  | Link
  | Image
deriving DecidableEq, Repr, Fintype

/-- `DOCUMENT_CHILDREN` (src/constants.rs), in insertion order. -/
def DOCUMENT_CHILDREN : List NodeType :=
  [.CMarkNodeParagraph, .CMarkNodeHeading, .CMarkNodeThematicBreak,
   .CMarkNodeCodeBlock, .CMarkNodeHtmlBlock, .CMarkNodeCustomBlock,
   .CMarkNodeList, .CMarkNodeBlockQuote]

/-- `LIST_CHILDREN` (src/constants.rs). -/
def LIST_CHILDREN : List NodeType := [.CMarkNodeItem]

/-- `ITEM_CHILDREN` (src/constants.rs): a clone of `DOCUMENT_CHILDREN`. -/
def ITEM_CHILDREN : List NodeType := DOCUMENT_CHILDREN

/-- `BLOCK_QUOTE_CHILDREN` (src/constants.rs): a clone of `DOCUMENT_CHILDREN`. -/
def BLOCK_QUOTE_CHILDREN : List NodeType := DOCUMENT_CHILDREN

/-- `CODE_BLOCK_CHILDREN` (src/constants.rs): empty. -/
def CODE_BLOCK_CHILDREN : List NodeType := []

/-- `HTML_BLOCK_CHILDREN` (src/constants.rs): empty. -/
def HTML_BLOCK_CHILDREN : List NodeType := []

/-- `CUSTOM_BLOCK_CHILDREN` (src/constants.rs), in insertion order. -/
def CUSTOM_BLOCK_CHILDREN : List NodeType :=
  [.CMarkNodeBlockQuote, .CMarkNodeList, .CMarkNodeItem, .CMarkNodeCodeBlock,
   .CMarkNodeHtmlBlock, .CMarkNodeCustomBlock, .CMarkNodeParagraph,
   .CMarkNodeHeading, .CMarkNodeThematicBreak, .CMarkNodeText,
   .CMarkNodeSoftbreak, .CMarkNodeLinebreak, .CMarkNodeCode,
   .CMarkNodeHtmlInline, .CMarkNodeCustomInline, .CMarkNodeEmph,
   .CMarkNodeStrong, .CMarkNodeLink, .CMarkNodeImage]

/-- `PARAGRAPH_CHILDREN` (src/constants.rs), in insertion order. -/
def PARAGRAPH_CHILDREN : List NodeType :=
  [.CMarkNodeText, .CMarkNodeEmph, .CMarkNodeCode, .CMarkNodeLink,
   .CMarkNodeImage, .CMarkNodeSoftbreak, .CMarkNodeLinebreak,
   .CMarkNodeHtmlInline, .CMarkNodeCustomInline, .CMarkNodeStrong]

/-- `HEADING_CHILDREN` (src/constants.rs): a clone of `PARAGRAPH_CHILDREN`. -/
def HEADING_CHILDREN : List NodeType := PARAGRAPH_CHILDREN

/-- `THEMATIC_BREAK_CHILDREN` (src/constants.rs): empty. -/
def THEMATIC_BREAK_CHILDREN : List NodeType := []

/-- `TEXT_CHILDREN` (src/constants.rs): empty. -/
def TEXT_CHILDREN : List NodeType := []

/-- `SOFT_BREAK_CHILDREN` (src/constants.rs): empty. -/
def SOFT_BREAK_CHILDREN : List NodeType := []

/-- `LINE_BREAK_CHILDREN` (src/constants.rs): empty. -/
def LINE_BREAK_CHILDREN : List NodeType := []

/-- `CODE_CHILDREN` (src/constants.rs): empty. -/
def CODE_CHILDREN : List NodeType := []

/-- `INLINE_HTML_CHILDREN` (src/constants.rs): empty. -/
def INLINE_HTML_CHILDREN : List NodeType := []

/-- `CUSTOM_INLINE_CHILDREN` (src/constants.rs): a clone of
`PARAGRAPH_CHILDREN`. -/
def CUSTOM_INLINE_CHILDREN : List NodeType := PARAGRAPH_CHILDREN

/-- `EMPH_CHILDREN` (src/constants.rs): a clone of `PARAGRAPH_CHILDREN`. -/
def EMPH_CHILDREN : List NodeType := PARAGRAPH_CHILDREN

/-- `STRONG_CHILDREN` (src/constants.rs): a clone of `PARAGRAPH_CHILDREN`. -/
def STRONG_CHILDREN : List NodeType := PARAGRAPH_CHILDREN

/-- `LINK_CHILDREN` (src/constants.rs): a clone of `PARAGRAPH_CHILDREN`. -/
def LINK_CHILDREN : List NodeType := PARAGRAPH_CHILDREN

/-- `IMAGE_CHILDREN` (src/constants.rs): a clone of `PARAGRAPH_CHILDREN`. -/
def IMAGE_CHILDREN : List NodeType := PARAGRAPH_CHILDREN

/-- `Node::can_append_child` (src/lib.rs): dispatch on the parent variant and
test membership of the child's cmark type in the matching static table;
the `List` arm compares against `CMarkNodeItem` directly. -/
def can_append_child (parent : NodeVariant) (child_type : NodeType) : Bool :=
  match parent with
  | .Document => DOCUMENT_CHILDREN.contains child_type
  | .BlockQuote => BLOCK_QUOTE_CHILDREN.contains child_type
  | .List => child_type = NodeType.CMarkNodeItem
  | .Item => ITEM_CHILDREN.contains child_type
  | .CodeBlock => CODE_BLOCK_CHILDREN.contains child_type
  | .HtmlBlock => HTML_BLOCK_CHILDREN.contains child_type
  | .CustomBlock => CUSTOM_BLOCK_CHILDREN.contains child_type
  | .Paragraph => PARAGRAPH_CHILDREN.contains child_type
  | .Heading => HEADING_CHILDREN.contains child_type
  | .ThematicBreak => THEMATIC_BREAK_CHILDREN.contains child_type
  | .Text => TEXT_CHILDREN.contains child_type
  | .SoftBreak => SOFT_BREAK_CHILDREN.contains child_type
  | .LineBreak => LINE_BREAK_CHILDREN.contains child_type
  | .Code => CODE_CHILDREN.contains child_type
  | .HtmlInline => INLINE_HTML_CHILDREN.contains child_type
  | .CustomInline => CUSTOM_INLINE_CHILDREN.contains child_type
  | .Emph => EMPH_CHILDREN.contains child_type
  | .Strong => STRONG_CHILDREN.contains child_type
  | .Link => LINK_CHILDREN.contains child_type
  | .Image => IMAGE_CHILDREN.contains child_type

/-- A concrete engine used only to instantiate witnesses. -/
def engine0 : Engine where
  iter := fun _ => []
  literal := fun _ => none
  type_of := fun _ => 0
  type_string := fun _ => some ""
  start_line := fun _ => 0
  start_column := fun _ => 0
  list_type := fun _ => 0
  list_delim := fun _ => 0
  heading_level := fun _ => 0
  url := fun _ => some ""
  title := fun _ => some ""
  fence_info := fun _ => some ""
  set_literal := fun _ _ => 1
  set_fence_info_code := fun _ _ => 1
  append_child_code := fun _ _ => 1
  next := fun _ => none
  prev := fun _ => none
  parent := fun _ => none
  first_child := fun _ => none
  last_child := fun _ => none
  render_commonmark_text := fun _ => ""
  render_xml_text := fun _ => ""
  new_node := fun _ => 0

/-- A concrete engine whose depth-first iteration of any subtree yields the
handles `5` then `7`. -/
def engineIterTwo : Engine := { engine0 with iter := fun _ => [5, 7] }

/-- A concrete engine that reports NULL for `cmark_node_get_url`. -/
def engineNullUrl : Engine := { engine0 with url := fun _ => none }

/-- A concrete state: one valid cell for handle `5`, tracked by registry `0`. -/
def stValid : SysState := ⟨[⟨5, some 5⟩], [⟨[(5, 0)]⟩]⟩

/-- A concrete state: valid cells for handles `5` and `7`, both tracked by
registry `0`. -/
def stTwo : SysState := ⟨[⟨5, some 5⟩, ⟨7, some 7⟩], [⟨[(5, 0), (7, 1)]⟩]⟩

/-- The capability factory carried by every node reached by navigation or
iteration from a fully-capable (`with_all`) root. -/
def childAllFactory : CapabilityFactory :=
  CapabilityFactory.new.with_all.make_child_factory

/-- A concrete state: one invalidated cell (handle cleared), still tracked by
registry `0`. -/
def stInvalid : SysState := ⟨[⟨5, none⟩], [⟨[(5, 0)]⟩]⟩

/-- A concrete mutator capability over cell `0` and registry `0`. -/
def smInvalid : StructuralMutator := ⟨0, 0, CapabilityFactory.new⟩

/-- Everything that can change registry or cell state leaves an invalidated
cell invalid: the only writes the system ever performs on a `node_pointer`
are `take()` calls. -/
def StaysInvalidAt (e : Engine) (st : SysState) (rc : CellIdx) : Prop :=
  (∀ m p, ((resource_for st m p).1).ptrOf rc = none) ∧
  (∀ m rc2, (track_resource st m rc2).ptrOf rc = none) ∧
  (∀ m other, (absorb st m other).ptrOf rc = none) ∧
  (∀ m rc2, (invalidate_resource e st m rc2).ptrOf rc = none) ∧
  (∀ m rc2, ((prune e st m rc2).1).ptrOf rc = none) ∧
  (∀ d : NodeDestructor, ((NodeDestructor.free e st d).1).ptrOf rc = none) ∧
  (∀ n : Node, ((Node.drop e st n).1).ptrOf rc = none) ∧
  (∀ sm : StructuralMutator, ((StructuralMutator.unlink e st sm).state).ptrOf rc = none) ∧
  (∀ sm child, ((StructuralMutator.append_child e st sm child).1).ptrOf rc = none) ∧
  (∀ t : NodeTraverser, ((NodeTraverser.next_sibling e st t).1).ptrOf rc = none) ∧
  (∀ t : NodeTraverser, ((NodeTraverser.prev_sibling e st t).1).ptrOf rc = none) ∧
  (∀ t : NodeTraverser, ((NodeTraverser.parent e st t).1).ptrOf rc = none) ∧
  (∀ t : NodeTraverser, ((NodeTraverser.first_child e st t).1).ptrOf rc = none) ∧
  (∀ t : NodeTraverser, ((NodeTraverser.last_child e st t).1).ptrOf rc = none) ∧
  (∀ t : NodeTraverser, ((NodeTraverser.itself st t).1).ptrOf rc = none) ∧
  (∀ f ty, ((NodeFactory.build e st f ty).1).ptrOf rc = none)

/-- Every fallible capability operation against an invalidated resource fails
with `ResourceUnavailable`; the two infallible ones (`iter`, `unlink`) return
without touching the dead handle (no engine iterator is opened, no engine
unlink is issued). -/
def FailsUnavailableAt (e : Engine) (st : SysState) (rc : CellIdx) : Prop :=
  NodeGetter.get_content e st ⟨rc⟩ = some (.error .resourceUnavailable) ∧
  NodeGetter.get_type e st ⟨rc⟩ = .error .resourceUnavailable ∧
  NodeGetter.get_type_string e st ⟨rc⟩ = some (.error .resourceUnavailable) ∧
  NodeGetter.get_start_line e st ⟨rc⟩ = .error .resourceUnavailable ∧
  NodeGetter.get_start_column e st ⟨rc⟩ = .error .resourceUnavailable ∧
  NodeGetter.get_id st ⟨rc⟩ = .error .resourceUnavailable ∧
  NodeGetter.get_list_type e st ⟨rc⟩ = .error .resourceUnavailable ∧
  NodeGetter.get_delim_type e st ⟨rc⟩ = .error .resourceUnavailable ∧
  NodeGetter.get_heading_level e st ⟨rc⟩ = .error .resourceUnavailable ∧
  NodeGetter.get_url e st ⟨rc⟩ = some (.error .resourceUnavailable) ∧
  NodeGetter.get_title e st ⟨rc⟩ = some (.error .resourceUnavailable) ∧
  NodeGetter.get_fence_info e st ⟨rc⟩ = some (.error .resourceUnavailable) ∧
  (∀ s, NodeSetter.set_content e st ⟨rc⟩ s = .error .resourceUnavailable) ∧
  (∀ s, NodeSetter.set_fence_info e st ⟨rc⟩ s = .error .resourceUnavailable) ∧
  (∀ m fac, NodeTraverser.next_sibling e st ⟨rc, m, fac⟩ =
    (st, .error .resourceUnavailable)) ∧
  (∀ m fac, NodeTraverser.prev_sibling e st ⟨rc, m, fac⟩ =
    (st, .error .resourceUnavailable)) ∧
  (∀ m fac, NodeTraverser.parent e st ⟨rc, m, fac⟩ =
    (st, .error .resourceUnavailable)) ∧
  (∀ m fac, NodeTraverser.first_child e st ⟨rc, m, fac⟩ =
    (st, .error .resourceUnavailable)) ∧
  (∀ m fac, NodeTraverser.last_child e st ⟨rc, m, fac⟩ =
    (st, .error .resourceUnavailable)) ∧
  (∀ m fac, NodeTraverser.itself st ⟨rc, m, fac⟩ =
    (st, .error .resourceUnavailable)) ∧
  (∀ m fac, StructuralMutator.consolidate_text_nodes st ⟨rc, m, fac⟩ =
    .error .resourceUnavailable) ∧
  (∀ m fac child cm child_p, child.capabilities.mutate = some cm →
    st.ptrOf cm.resource = some child_p →
    StructuralMutator.append_child e st ⟨rc, m, fac⟩ child =
      (st, .error .resourceUnavailable)) ∧
  (∀ sm child cm, child.capabilities.mutate = some cm → cm.resource = rc →
    StructuralMutator.append_child e st sm child =
      (st, .error .resourceUnavailable)) ∧
  (∀ m fac, (NodeTraverser.iter st ⟨rc, m, fac⟩).iter_p = none) ∧
  (∀ m fac, (StructuralMutator.unlink e st ⟨rc, m, fac⟩).engineUnlinkCalled = false)

/-- The behaviour of the five text getters (claim C7, amended): only
`get_content` normalises the engine's NULL to `Ok("")`; the other four return
the engine text unchanged and hit undefined behaviour (outer `none`) on NULL;
all five fail with `ResourceUnavailable` before touching an invalid handle. -/
def TextGetterSpec (e : Engine) (st : SysState) (rc : CellIdx) : Prop :=
  (st.ptrOf rc = none →
    NodeGetter.get_content e st ⟨rc⟩ = some (.error .resourceUnavailable) ∧
    NodeGetter.get_url e st ⟨rc⟩ = some (.error .resourceUnavailable) ∧
    NodeGetter.get_title e st ⟨rc⟩ = some (.error .resourceUnavailable) ∧
    NodeGetter.get_fence_info e st ⟨rc⟩ = some (.error .resourceUnavailable) ∧
    NodeGetter.get_type_string e st ⟨rc⟩ = some (.error .resourceUnavailable)) ∧
  (∀ p, st.ptrOf rc = some p → e.literal p = none →
    NodeGetter.get_content e st ⟨rc⟩ = some (.ok "")) ∧
  (∀ p s, st.ptrOf rc = some p → e.literal p = some s →
    NodeGetter.get_content e st ⟨rc⟩ = some (.ok s)) ∧
  (∀ p s, st.ptrOf rc = some p → e.url p = some s →
    NodeGetter.get_url e st ⟨rc⟩ = some (.ok s)) ∧
  (∀ p, st.ptrOf rc = some p → e.url p = none →
    NodeGetter.get_url e st ⟨rc⟩ = none) ∧
  (∀ p s, st.ptrOf rc = some p → e.title p = some s →
    NodeGetter.get_title e st ⟨rc⟩ = some (.ok s)) ∧
  (∀ p, st.ptrOf rc = some p → e.title p = none →
    NodeGetter.get_title e st ⟨rc⟩ = none) ∧
  (∀ p s, st.ptrOf rc = some p → e.fence_info p = some s →
    NodeGetter.get_fence_info e st ⟨rc⟩ = some (.ok s)) ∧
  (∀ p, st.ptrOf rc = some p → e.fence_info p = none →
    NodeGetter.get_fence_info e st ⟨rc⟩ = none) ∧
  (∀ p s, st.ptrOf rc = some p → e.type_string p = some s →
    NodeGetter.get_type_string e st ⟨rc⟩ = some (.ok s)) ∧
  (∀ p, st.ptrOf rc = some p → e.type_string p = none →
    NodeGetter.get_type_string e st ⟨rc⟩ = none)

/-- The behaviour of both renderers (claim C9): infallible, empty string on an
invalid resource, the engine's subtree rendering otherwise; the source takes
`&self` only, so neither the resource nor any registry can be mutated. -/
def RendererSpec (e : Engine) (st : SysState) (r : NodeRenderer) : Prop :=
  (st.ptrOf r.resource = none →
    NodeRenderer.render_commonmark e st r = "" ∧
    NodeRenderer.render_xml e st r = "") ∧
  (∀ p, st.ptrOf r.resource = some p →
    NodeRenderer.render_commonmark e st r = e.render_commonmark_text p ∧
    NodeRenderer.render_xml e st r = e.render_xml_text p)

/-- The behaviour of `append_child` (claim C6): the three `ResourceUnavailable`
gates, the no-mutation `ReturnCode` path, and the success path with its
registry absorption, drained child registry and re-tracked child pointer.
The success conjunct assumes the two registries are distinct objects: when
parent and child share the same `Rc<RefCell<ResourceManager>>` the source's
`absorb` re-borrows an already mutably borrowed `RefCell` and aborts, so no
returned value exists to specify. -/
def AppendChildSpec (e : Engine) (st : SysState) (sm : StructuralMutator)
    (child : Node) : Prop :=
  (child.capabilities.mutate = none →
    StructuralMutator.append_child e st sm child =
      (st, .error .resourceUnavailable)) ∧
  (∀ cm, child.capabilities.mutate = some cm → st.ptrOf cm.resource = none →
    StructuralMutator.append_child e st sm child =
      (st, .error .resourceUnavailable)) ∧
  (∀ cm child_p, child.capabilities.mutate = some cm →
    st.ptrOf cm.resource = some child_p → st.ptrOf sm.resource = none →
    StructuralMutator.append_child e st sm child =
      (st, .error .resourceUnavailable)) ∧
  (∀ cm child_p parent_p, child.capabilities.mutate = some cm →
    st.ptrOf cm.resource = some child_p → st.ptrOf sm.resource = some parent_p →
    e.append_child_code parent_p child_p ≠ 1 →
    StructuralMutator.append_child e st sm child =
      (st, .error (.returnCode (e.append_child_code parent_p child_p)))) ∧
  (∀ cm child_p parent_p, child.capabilities.mutate = some cm →
    st.ptrOf cm.resource = some child_p → st.ptrOf sm.resource = some parent_p →
    e.append_child_code parent_p child_p = 1 →
    sm.manager ≠ cm.manager →
    StructuralMutator.append_child e st sm child =
      ((resource_for (absorb st sm.manager cm.manager) sm.manager child_p).1,
       .ok ⟨sm.cap_factory.build
         (resource_for (absorb st sm.manager cm.manager) sm.manager child_p).2
         sm.manager⟩) ∧
    ((StructuralMutator.append_child e st sm child).1).mgrAt cm.manager = ⟨[]⟩ ∧
    (sm.manager < st.mgrs.length →
      mapLookup
        (((StructuralMutator.append_child e st sm child).1).mgrAt sm.manager).resources
        (toId child_p) =
      some (resource_for (absorb st sm.manager cm.manager) sm.manager child_p).2))

/-- The behaviour of `unlink` on an already-invalidated resource (claim C10):
no engine detach, no error (the result is a plain `Node`), a brand-new empty
registry, the old registry untouched with the invalid resource still tracked
under its key `k`, and the returned node rebuilt over the same still-invalid
resource against the new registry. -/
def UnlinkInvalidSpec (e : Engine) (st : SysState) (sm : StructuralMutator)
    (k : Nat) : Prop :=
  (StructuralMutator.unlink e st sm).engineUnlinkCalled = false ∧
  ((StructuralMutator.unlink e st sm).state).cells = st.cells ∧
  (StructuralMutator.unlink e st sm).newMgr = st.mgrs.length ∧
  ((StructuralMutator.unlink e st sm).state).mgrAt
    (StructuralMutator.unlink e st sm).newMgr = ⟨[]⟩ ∧
  ((StructuralMutator.unlink e st sm).state).mgrAt sm.manager =
    st.mgrAt sm.manager ∧
  mapLookup (((StructuralMutator.unlink e st sm).state).mgrAt sm.manager).resources
    k = some sm.resource ∧
  (StructuralMutator.unlink e st sm).node =
    ⟨sm.cap_factory.build sm.resource st.mgrs.length⟩ ∧
  ((StructuralMutator.unlink e st sm).state).ptrOf sm.resource = none

/-- The behaviour of `resource_for` (claim C5): tracked handles resolve to the
already-registered shared cell with no state change, fresh handles allocate
and register exactly one new cell, repeated calls are idempotent, and key
distinctness of the registry is preserved. -/
def ResourceForSpec (st : SysState) (m : MgrIdx) (p : Handle) : Prop :=
  (∀ ci, mapLookup (st.mgrAt m).resources (toId p) = some ci →
    resource_for st m p = (st, ci)) ∧
  (mapLookup (st.mgrAt m).resources (toId p) = none →
    (resource_for st m p).2 = st.cells.length ∧
    ((resource_for st m p).1).cells = st.cells ++ [⟨toId p, some p⟩] ∧
    mapLookup (((resource_for st m p).1).mgrAt m).resources (toId p) =
      some st.cells.length) ∧
  (resource_for (resource_for st m p).1 m p =
    ((resource_for st m p).1, (resource_for st m p).2)) ∧
  ((mapKeys (st.mgrAt m).resources).Nodup →
    (mapKeys (((resource_for st m p).1).mgrAt m).resources).Nodup)

/-- The static child table of each parent variant, as named by
src/constants.rs. -/
def child_table : NodeVariant → List NodeType
  | .Document => DOCUMENT_CHILDREN
  | .BlockQuote => BLOCK_QUOTE_CHILDREN
  | .List => LIST_CHILDREN
  | .Item => ITEM_CHILDREN
  | .CodeBlock => CODE_BLOCK_CHILDREN
  | .HtmlBlock => HTML_BLOCK_CHILDREN
  | .CustomBlock => CUSTOM_BLOCK_CHILDREN
  | .Paragraph => PARAGRAPH_CHILDREN
  | .Heading => HEADING_CHILDREN
  | .ThematicBreak => THEMATIC_BREAK_CHILDREN
  | .Text => TEXT_CHILDREN
  | .SoftBreak => SOFT_BREAK_CHILDREN
  | .LineBreak => LINE_BREAK_CHILDREN
  | .Code => CODE_CHILDREN
  | .HtmlInline => INLINE_HTML_CHILDREN
  | .CustomInline => CUSTOM_INLINE_CHILDREN
  | .Emph => EMPH_CHILDREN
  | .Strong => STRONG_CHILDREN
  | .Link => LINK_CHILDREN
  | .Image => IMAGE_CHILDREN

theorem cellsPtr_clearCell_self : ∀ (cs : List CMarkNodeResource) (i : Nat),
    cellsPtr (clearCell cs i) i = none
  | [], _ => rfl
  | _ :: _, 0 => rfl
  | _ :: cs, n + 1 => cellsPtr_clearCell_self cs n

theorem cellsPtr_clearCell_of_none :
    ∀ (cs : List CMarkNodeResource) (i j : Nat),
    cellsPtr cs j = none → cellsPtr (clearCell cs i) j = none
  | [], _, _, h => h
  | _ :: _, 0, 0, _ => rfl
  | _ :: _, 0, _ + 1, h => h
  | _ :: _, _ + 1, 0, h => h
  | _ :: cs, i + 1, j + 1, h => cellsPtr_clearCell_of_none cs i j h

theorem clearCell_of_ptr_none :
    ∀ (cs : List CMarkNodeResource) (i : Nat),
    cellsPtr cs i = none → clearCell cs i = cs
  | [], _, _ => rfl
  | c :: cs, 0, h => by
      cases c with
      | mk cid ptr =>
          simp only [cellsPtr] at h
          simp [clearCell, h]
  | _ :: cs, i + 1, h => by
      simp only [clearCell, List.cons.injEq, true_and]
      exact clearCell_of_ptr_none cs i h

theorem cellsPtr_append_of_lt :
    ∀ (cs l : List CMarkNodeResource) (j : Nat),
    j < cs.length → cellsPtr (cs ++ l) j = cellsPtr cs j
  | [], _, j, h => absurd h (Nat.not_lt_zero j)
  | _ :: _, _, 0, _ => rfl
  | _ :: cs, l, j + 1, h => cellsPtr_append_of_lt cs l j (Nat.lt_of_succ_lt_succ h)

theorem invalidate_step_ptr_none (mgr : ResourceManager) (rc : CellIdx)
    (cells : List CMarkNodeResource) (cur : Handle) (j : Nat)
    (h : cellsPtr cells j = none) :
    cellsPtr (invalidate_step mgr rc cells cur) j = none := by
  unfold invalidate_step
  cases mapLookup mgr.resources (toId cur) with
  | none => exact h
  | some ci =>
      by_cases hci : ci = rc
      · simpa [hci] using h
      · simp only [hci, if_false]
        exact cellsPtr_clearCell_of_none cells ci j h

theorem invalidate_fold_ptr_none (mgr : ResourceManager) (rc : CellIdx) :
    ∀ (l : List Handle) (cells : List CMarkNodeResource) (j : Nat),
    cellsPtr cells j = none →
    cellsPtr (l.foldl (invalidate_step mgr rc) cells) j = none
  | [], _, _, h => h
  | cur :: l, cells, j, h =>
      invalidate_fold_ptr_none mgr rc l _ j (invalidate_step_ptr_none mgr rc cells cur j h)

theorem invalidate_fold_clears (mgr : ResourceManager) (rc : CellIdx) :
    ∀ (l : List Handle) (cells : List CMarkNodeResource) (cur : Handle) (ci : CellIdx),
    cur ∈ l → mapLookup mgr.resources (toId cur) = some ci → ci ≠ rc →
    cellsPtr (l.foldl (invalidate_step mgr rc) cells) ci = none := by
  intro l
  induction l with
  | nil => intro cells cur ci h; cases h
  | cons a l ih =>
      intro cells cur ci hmem hlk hne
      rw [List.foldl_cons]
      rcases List.mem_cons.mp hmem with hcur | hmem2
      · subst hcur
        apply invalidate_fold_ptr_none
        unfold invalidate_step
        rw [hlk]
        show cellsPtr (if ci = rc then cells else clearCell cells ci) ci = none
        rw [if_neg hne]
        exact cellsPtr_clearCell_self cells ci
      · exact ih _ cur ci hmem2 hlk hne

theorem setIdx_length : ∀ (l : List ResourceManager) (i : Nat) (x : ResourceManager),
    (setIdx l i x).length = l.length
  | [], _, _ => rfl
  | _ :: _, 0, _ => rfl
  | _ :: rest, n + 1, x => congrArg Nat.succ (setIdx_length rest n x)

theorem getIdx_setIdx_self : ∀ (l : List ResourceManager) (i : Nat) (x : ResourceManager),
    i < l.length → getIdx (setIdx l i x) i = x
  | [], i, _, h => absurd h (Nat.not_lt_zero i)
  | _ :: _, 0, _, _ => rfl
  | _ :: rest, n + 1, x, h => getIdx_setIdx_self rest n x (Nat.lt_of_succ_lt_succ h)

theorem getIdx_setIdx_ne : ∀ (l : List ResourceManager) (i j : Nat) (x : ResourceManager),
    i ≠ j → getIdx (setIdx l i x) j = getIdx l j
  | [], _, _, _, _ => rfl
  | _ :: _, 0, 0, _, h => absurd rfl h
  | _ :: _, 0, _ + 1, _, _ => rfl
  | _ :: _, _ + 1, 0, _, _ => rfl
  | _ :: rest, n + 1, j + 1, x, h =>
      getIdx_setIdx_ne rest n j x (fun hh => h (congrArg Nat.succ hh))

theorem getIdx_setIdx_empty : ∀ (l : List ResourceManager) (i : Nat),
    getIdx (setIdx l i ⟨[]⟩) i = ⟨[]⟩
  | [], _ => rfl
  | _ :: _, 0 => rfl
  | _ :: rest, n + 1 => getIdx_setIdx_empty rest n

theorem getIdx_append_self : ∀ (l : List ResourceManager) (x : ResourceManager),
    getIdx (l ++ [x]) l.length = x
  | [], _ => rfl
  | _ :: rest, x => getIdx_append_self rest x

theorem getIdx_append_empty : ∀ (l : List ResourceManager) (j : Nat),
    getIdx (l ++ [⟨[]⟩]) j = getIdx l j
  | [], 0 => rfl
  | [], _ + 1 => rfl
  | _ :: _, 0 => rfl
  | _ :: rest, j + 1 => getIdx_append_empty rest j

theorem mapLookup_mapInsert_self : ∀ (m : List (Nat × CellIdx)) (k : Nat) (v : CellIdx),
    mapLookup (mapInsert m k v) k = some v
  | [], k, v => by simp [mapInsert, mapLookup]
  | (k1, v1) :: rest, k, v => by
      by_cases h : k1 = k
      · simp [mapInsert, h, mapLookup]
      · simp [mapInsert, h, mapLookup, mapLookup_mapInsert_self rest k v]

theorem mapLookup_none_not_mem : ∀ (m : List (Nat × CellIdx)) (k : Nat),
    mapLookup m k = none → k ∉ mapKeys m
  | [], _, _ => by simp [mapKeys]
  | (k1, v1) :: rest, k, h => by
      simp only [mapLookup] at h
      by_cases hk : k1 = k
      · simp [hk] at h
      · simp only [hk, if_false] at h
        simp only [mapKeys, List.map_cons, List.mem_cons]
        push_neg
        exact ⟨fun hh => hk hh.symm, mapLookup_none_not_mem rest k h⟩

theorem mapKeys_mapInsert_of_none : ∀ (m : List (Nat × CellIdx)) (k : Nat) (v : CellIdx),
    mapLookup m k = none → mapKeys (mapInsert m k v) = mapKeys m ++ [k]
  | [], k, v, _ => rfl
  | (k1, v1) :: rest, k, v, h => by
      simp only [mapLookup] at h
      by_cases hk : k1 = k
      · simp [hk] at h
      · simp only [hk, if_false] at h
        have hrec := mapKeys_mapInsert_of_none rest k v h
        simp only [mapKeys] at hrec
        simp [mapInsert, hk, mapKeys, hrec]

theorem mapKeys_mapInsert_of_some : ∀ (m : List (Nat × CellIdx)) (k : Nat) (v v0 : CellIdx),
    mapLookup m k = some v0 → mapKeys (mapInsert m k v) = mapKeys m
  | [], _, _, _, h => by simp [mapLookup] at h
  | (k1, v1) :: rest, k, v, v0, h => by
      simp only [mapLookup] at h
      by_cases hk : k1 = k
      · simp [mapInsert, hk, mapKeys]
      · simp only [hk, if_false] at h
        have hrec := mapKeys_mapInsert_of_some rest k v v0 h
        simp only [mapKeys] at hrec
        simp [mapInsert, hk, mapKeys, hrec]

theorem nodup_mapKeys_mapInsert (m : List (Nat × CellIdx)) (k : Nat) (v : CellIdx)
    (h : (mapKeys m).Nodup) : (mapKeys (mapInsert m k v)).Nodup := by
  cases hl : mapLookup m k with
  | none =>
      rw [mapKeys_mapInsert_of_none m k v hl]
      have hk : k ∉ mapKeys m := mapLookup_none_not_mem m k hl
      simp [List.nodup_append, h, hk]
  | some v0 => rw [mapKeys_mapInsert_of_some m k v v0 hl]; exact h

theorem resource_for_lookup (st : SysState) (m : MgrIdx) (p : Handle)
    (hm : m < st.mgrs.length) :
    mapLookup (((resource_for st m p).1).mgrAt m).resources (toId p) =
      some (resource_for st m p).2 := by
  unfold resource_for SysState.mgrAt
  cases hl : mapLookup (getIdx st.mgrs m).resources (toId p) with
  | some ci => simp [hl]
  | none =>
      simp only [hl]
      rw [getIdx_setIdx_self _ _ _ hm]
      exact mapLookup_mapInsert_self ..

theorem resource_for_ptr_none (st : SysState) (m : MgrIdx) (p : Handle) (rc : CellIdx)
    (hrc : rc < st.cells.length) (h : st.ptrOf rc = none) :
    ((resource_for st m p).1).ptrOf rc = none := by
  unfold SysState.ptrOf at h ⊢
  unfold resource_for SysState.mgrAt
  cases hl : mapLookup (getIdx st.mgrs m).resources (toId p) with
  | some ci => simpa [hl] using h
  | none =>
      simp only [hl]
      exact (cellsPtr_append_of_lt st.cells _ rc hrc).trans h

theorem absorb_cells (st : SysState) (m other : MgrIdx) :
    (absorb st m other).cells = st.cells := rfl

theorem track_resource_cells (st : SysState) (m : MgrIdx) (rc : CellIdx) :
    (track_resource st m rc).cells = st.cells := rfl

theorem prune_cells (e : Engine) (st : SysState) (m : MgrIdx) (rc : CellIdx) :
    ((prune e st m rc).1).cells = st.cells := by
  unfold prune
  split <;> rfl

theorem invalidate_ptr_none (e : Engine) (st : SysState) (m : MgrIdx)
    (rc rc0 : CellIdx) (h : st.ptrOf rc0 = none) :
    (invalidate_resource e st m rc).ptrOf rc0 = none := by
  unfold SysState.ptrOf at h ⊢
  unfold invalidate_resource
  apply cellsPtr_clearCell_of_none
  split
  · exact invalidate_fold_ptr_none _ _ _ _ _ h
  · exact h

theorem invalidate_ptr_self (e : Engine) (st : SysState) (m : MgrIdx) (rc : CellIdx) :
    (invalidate_resource e st m rc).ptrOf rc = none := by
  unfold SysState.ptrOf invalidate_resource
  exact cellsPtr_clearCell_self _ rc

theorem invalidate_of_invalid (e : Engine) (st : SysState) (m : MgrIdx) (rc : CellIdx)
    (h : st.ptrOf rc = none) : invalidate_resource e st m rc = st := by
  simp only [invalidate_resource, h]
  rw [clearCell_of_ptr_none st.cells rc h]

theorem make_child_factory_eq : ∀ f : CapabilityFactory,
    f.make_child_factory = { f with destructor_builder := false } := by decide

theorem make_child_factory_idem : ∀ f : CapabilityFactory,
    f.make_child_factory.make_child_factory = f.make_child_factory := by decide

theorem navFactory_succ (f : CapabilityFactory) (n : Nat) :
    navFactory f (n + 1) = f.make_child_factory := by
  induction n with
  | zero => rfl
  | succ n ih =>
      show (navFactory f (n + 1)).make_child_factory = f.make_child_factory
      rw [ih]
      exact make_child_factory_idem f

theorem iter_capability_factory (st : SysState) (t : NodeTraverser) :
    (NodeTraverser.iter st t).capability_factory =
      { t.cap_factory.make_child_factory with destructor_builder := false } := by
  unfold NodeTraverser.iter
  cases st.ptrOf t.resource <;> rfl

/-- Claim C4: `make_child_factory` replicates exactly the configured
capabilities except destructor, it is idempotent, every node reached after
one or more navigation steps from a fully-capable root is governed by
`childAllFactory` and its built bundle carries every capability except
destructor, no bundle built from a derived child factory ever holds a
destructor, and the iterator factory likewise strips the destructor. -/
theorem claim_C4 :
    (∀ f : CapabilityFactory,
      f.make_child_factory = { f with destructor_builder := false }) ∧
    (∀ f : CapabilityFactory,
      f.make_child_factory.make_child_factory = f.make_child_factory) ∧
    (∀ (f : CapabilityFactory) (n : Nat),
      navFactory f (n + 1) = f.make_child_factory) ∧
    (∀ (f : CapabilityFactory) (rc : CellIdx) (m : MgrIdx),
      ((f.make_child_factory).build rc m).destruct = none) ∧
    (∀ (rc : CellIdx) (m : MgrIdx) (n : Nat),
      (navFactory CapabilityFactory.new.with_all (n + 1)).build rc m =
        ⟨some ⟨rc⟩, some ⟨rc⟩, some ⟨rc, m, childAllFactory⟩, none,
         some ⟨rc, m, childAllFactory⟩, some ⟨rc⟩⟩) ∧
    (∀ (st : SysState) (t : NodeTraverser),
      ((NodeTraverser.iter st t).capability_factory).destructor_builder = false) ∧
    (∀ (st : SysState) (rc : CellIdx) (m : MgrIdx),
      (NodeTraverser.iter st ⟨rc, m, CapabilityFactory.new.with_all⟩).capability_factory =
        childAllFactory) := by
  refine ⟨make_child_factory_eq, make_child_factory_idem, navFactory_succ, ?_, ?_, ?_, ?_⟩
  · intro f rc m
    rw [make_child_factory_eq f]
    simp [CapabilityFactory.build]
  · intro rc m n
    rw [navFactory_succ]
    rfl
  · intro st t
    rw [iter_capability_factory]
  · intro st rc m
    rw [iter_capability_factory]
    rfl

/-- Claim C8: for every pair of parent node variant and candidate child node
type, `can_append_child` answers membership of the child type in the parent's
static child table, and the tables have exactly the shapes the spec lists:
Document accepts the eight block types, List accepts only Item, the eight
childless types accept nothing, and the seven inline containers all accept
the same ten-element inline set. -/
theorem claim_C8 :
    (∀ (p : NodeVariant) (c : NodeType),
      can_append_child p c = (child_table p).contains c) ∧
    (∀ c : NodeType, can_append_child .Document c = true ↔
      c ∈ [NodeType.CMarkNodeParagraph, NodeType.CMarkNodeHeading,
           NodeType.CMarkNodeThematicBreak, NodeType.CMarkNodeCodeBlock,
           NodeType.CMarkNodeHtmlBlock, NodeType.CMarkNodeCustomBlock,
           NodeType.CMarkNodeList, NodeType.CMarkNodeBlockQuote]) ∧
    (∀ c : NodeType, can_append_child .List c = true ↔ c = NodeType.CMarkNodeItem) ∧
    (∀ c : NodeType, can_append_child .Text c = false) ∧
    (∀ c : NodeType, can_append_child .CodeBlock c = false) ∧
    (∀ c : NodeType, can_append_child .HtmlBlock c = false) ∧
    (∀ c : NodeType, can_append_child .ThematicBreak c = false) ∧
    (∀ c : NodeType, can_append_child .SoftBreak c = false) ∧
    (∀ c : NodeType, can_append_child .LineBreak c = false) ∧
    (∀ c : NodeType, can_append_child .Code c = false) ∧
    (∀ c : NodeType, can_append_child .HtmlInline c = false) ∧
    (∀ c : NodeType, can_append_child .Paragraph c = can_append_child .Heading c) ∧
    (∀ c : NodeType, can_append_child .Paragraph c = can_append_child .Emph c) ∧
    (∀ c : NodeType, can_append_child .Paragraph c = can_append_child .Strong c) ∧
    (∀ c : NodeType, can_append_child .Paragraph c = can_append_child .Link c) ∧
    (∀ c : NodeType, can_append_child .Paragraph c = can_append_child .Image c) ∧
    (∀ c : NodeType, can_append_child .Paragraph c = can_append_child .CustomInline c) ∧
    (∀ c : NodeType, can_append_child .Paragraph c = true ↔
      c ∈ [NodeType.CMarkNodeText, NodeType.CMarkNodeEmph, NodeType.CMarkNodeCode,
           NodeType.CMarkNodeLink, NodeType.CMarkNodeImage, NodeType.CMarkNodeSoftbreak,
           NodeType.CMarkNodeLinebreak, NodeType.CMarkNodeHtmlInline,
           NodeType.CMarkNodeCustomInline, NodeType.CMarkNodeStrong]) := by
  decide

/-- Claim C9: `render_commonmark` and `render_xml` never fail: an invalid
resource renders to the empty string, a valid one to the engine's rendering of
the subtree, and (the model functions being read-only, as the source methods
take `&self`) neither the resource nor the registry is mutated. -/
theorem claim_C9 : ∀ (e : Engine) (st : SysState) (r : NodeRenderer),
    RendererSpec e st r := by
  intro e st r
  constructor
  · intro h
    constructor <;>
      simp [NodeRenderer.render_commonmark, NodeRenderer.render_xml, h]
  · intro p h
    constructor <;>
      simp [NodeRenderer.render_commonmark, NodeRenderer.render_xml, h]

/-- Claim C2: on a resource holding a valid handle, `invalidate_resource`
clears the cell of every node visited by the engine's depth-first iteration
whose identity is tracked in the registry, and finally clears the cell of the
given resource itself, so both are invalid afterwards. -/
theorem claim_C2 (e : Engine) (st : SysState) (m : MgrIdx) (rc : CellIdx)
    (p0 cur : Handle) (ci : CellIdx)
    (h0 : st.ptrOf rc = some p0) (h1 : cur ∈ e.iter p0)
    (h2 : mapLookup (st.mgrAt m).resources (toId cur) = some ci) :
    (invalidate_resource e st m rc).ptrOf ci = none ∧
    (invalidate_resource e st m rc).ptrOf rc = none := by
  refine ⟨?_, invalidate_ptr_self e st m rc⟩
  by_cases hci : ci = rc
  · subst hci
    exact invalidate_ptr_self e st m ci
  · have h0c : cellsPtr st.cells rc = some p0 := h0
    simp only [invalidate_resource, SysState.ptrOf, h0c]
    apply cellsPtr_clearCell_of_none
    exact invalidate_fold_clears (st.mgrAt m) rc _ st.cells cur ci h1 h2 hci

/-- Witness for claim C2 at a concrete two-node tree. -/
theorem claim_C2_witness :
    (invalidate_resource engineIterTwo stTwo 0 0).ptrOf 1 = none ∧
    (invalidate_resource engineIterTwo stTwo 0 0).ptrOf 0 = none :=
  claim_C2 engineIterTwo stTwo 0 0 5 7 1 (by decide) (by decide) (by decide)

/-- Claim C3: dropping two nodes built over the same still-valid resource,
each holding a destructor capability, invalidates the resource exactly once
(the registry invalidation is the state in which the engine free is issued),
reaches the engine free primitive exactly once with the handle, and the
second drop observes the cleared handle, changes nothing and does not reach
the engine. -/
theorem claim_C3 (e : Engine) (st : SysState) (m : MgrIdx) (rc : CellIdx)
    (p : Handle) (fac : CapabilityFactory)
    (hdes : fac.destructor_builder = true) (hval : st.ptrOf rc = some p) :
    Node.drop e st ⟨fac.build rc m⟩ = (invalidate_resource e st m rc, [p]) ∧
    (invalidate_resource e st m rc).ptrOf rc = none ∧
    Node.drop e (invalidate_resource e st m rc) ⟨fac.build rc m⟩ =
      (invalidate_resource e st m rc, []) := by
  have hbuild : (fac.build rc m).destruct = some ⟨rc, m⟩ := by
    simp [CapabilityFactory.build, hdes]
  have hinv : (invalidate_resource e st m rc).ptrOf rc = none :=
    invalidate_ptr_self e st m rc
  refine ⟨?_, hinv, ?_⟩
  · simp only [Node.drop, hbuild, NodeDestructor.free, hval]
  · simp only [Node.drop, hbuild, NodeDestructor.free, hinv,
      invalidate_of_invalid e _ m rc hinv]

/-- Claim C7, counterexample to the claim as stated: with a valid resource and
an engine reporting NULL for the url text, `get_url` does not return an empty
string successfully — the source passes the NULL pointer straight to
`CStr::from_ptr` with no check (undefined behaviour, the model's outer
`none`), unlike `get_content`. -/
theorem claim_C7_counterexample :
    NodeGetter.get_url engineNullUrl stValid ⟨0⟩ ≠ some (Except.ok "") := by
  decide

/-- Claim C7 (amended): all five text getters fail with `ResourceUnavailable`
on an invalid resource before touching the handle; `get_content` alone
normalises the engine's NULL to an empty string; `get_url`, `get_title`,
`get_fence_info` and `get_type_string` return the engine text unchanged and
perform no NULL normalisation. -/
theorem claim_C7 : ∀ (e : Engine) (st : SysState) (rc : CellIdx),
    TextGetterSpec e st rc := by
  intro e st rc
  refine ⟨?_, ?_, ?_, ?_, ?_, ?_, ?_, ?_, ?_, ?_, ?_⟩
  · intro h
    refine ⟨?_, ?_, ?_, ?_, ?_⟩ <;>
      simp [NodeGetter.get_content, NodeGetter.get_url, NodeGetter.get_title,
        NodeGetter.get_fence_info, NodeGetter.get_type_string, h]
  · intro p hp hl
    simp [NodeGetter.get_content, hp, hl]
  · intro p s hp hl
    simp [NodeGetter.get_content, hp, hl]
  · intro p s hp hl
    simp [NodeGetter.get_url, hp, hl]
  · intro p hp hl
    simp [NodeGetter.get_url, hp, hl]
  · intro p s hp hl
    simp [NodeGetter.get_title, hp, hl]
  · intro p hp hl
    simp [NodeGetter.get_title, hp, hl]
  · intro p s hp hl
    simp [NodeGetter.get_fence_info, hp, hl]
  · intro p hp hl
    simp [NodeGetter.get_fence_info, hp, hl]
  · intro p s hp hl
    simp [NodeGetter.get_type_string, hp, hl]
  · intro p hp hl
    simp [NodeGetter.get_type_string, hp, hl]

/-- Claim C10: `unlink` on an invalidated resource. -/
theorem claim_C10 (e : Engine) (st : SysState) (sm : StructuralMutator) (k : Nat)
    (hinv : st.ptrOf sm.resource = none)
    (htr : mapLookup (st.mgrAt sm.manager).resources k = some sm.resource) :
    UnlinkInvalidSpec e st sm k := by
  have h1 : StructuralMutator.unlink e st sm =
      ⟨{ st with mgrs := st.mgrs ++ [⟨[]⟩] }, st.mgrs.length,
       ⟨sm.cap_factory.build sm.resource st.mgrs.length⟩, false⟩ := by
    simp only [StructuralMutator.unlink, prune, hinv]
    rfl
  unfold UnlinkInvalidSpec
  rw [h1]
  refine ⟨rfl, rfl, rfl, ?_, ?_, ?_, rfl, ?_⟩
  · show SysState.mgrAt _ _ = _
    simp only [SysState.mgrAt]
    exact getIdx_append_self st.mgrs ⟨[]⟩
  · show SysState.mgrAt _ _ = _
    simp only [SysState.mgrAt]
    exact getIdx_append_empty st.mgrs sm.manager
  · show mapLookup (SysState.mgrAt _ _).resources k = _
    simp only [SysState.mgrAt]
    rw [getIdx_append_empty st.mgrs sm.manager]
    exact htr
  · exact hinv

/-- Witness for claim C10 at a concrete invalidated, tracked resource. -/
theorem claim_C10_witness : UnlinkInvalidSpec engine0 stInvalid smInvalid 5 :=
  claim_C10 engine0 stInvalid smInvalid 5 (by decide) (by decide)

theorem resource_for_of_tracked (st : SysState) (m : MgrIdx) (p : Handle)
    (ci : CellIdx)
    (h : mapLookup (st.mgrAt m).resources (toId p) = some ci) :
    resource_for st m p = (st, ci) := by
  unfold SysState.mgrAt at h
  simp only [resource_for, SysState.mgrAt, h]

theorem resource_for_idem (st : SysState) (m : MgrIdx) (p : Handle)
    (hm : m < st.mgrs.length) :
    resource_for (resource_for st m p).1 m p =
      ((resource_for st m p).1, (resource_for st m p).2) :=
  resource_for_of_tracked _ m p _ (resource_for_lookup st m p hm)

theorem resource_for_fresh (st : SysState) (m : MgrIdx) (p : Handle)
    (hm : m < st.mgrs.length)
    (h : mapLookup (st.mgrAt m).resources (toId p) = none) :
    (resource_for st m p).2 = st.cells.length ∧
    ((resource_for st m p).1).cells = st.cells ++ [⟨toId p, some p⟩] ∧
    mapLookup (((resource_for st m p).1).mgrAt m).resources (toId p) =
      some st.cells.length := by
  unfold SysState.mgrAt at h
  have hv : (resource_for st m p).2 = st.cells.length := by
    simp only [resource_for, SysState.mgrAt, h]
  refine ⟨hv, ?_, ?_⟩
  · simp only [resource_for, SysState.mgrAt, h]
  · have h2 := resource_for_lookup st m p hm
    rw [hv] at h2
    exact h2

theorem resource_for_nodup (st : SysState) (m : MgrIdx) (p : Handle)
    (hm : m < st.mgrs.length)
    (h : (mapKeys (st.mgrAt m).resources).Nodup) :
    (mapKeys (((resource_for st m p).1).mgrAt m).resources).Nodup := by
  unfold SysState.mgrAt at h
  unfold resource_for SysState.mgrAt
  cases hl : mapLookup (getIdx st.mgrs m).resources (toId p) with
  | some ci => simpa [hl] using h
  | none =>
      simp only [hl]
      rw [getIdx_setIdx_self _ _ _ hm]
      exact nodup_mapKeys_mapInsert _ _ _ h

/-- Claim C5: `resource_for` returns the tracked shared cell unchanged when
the identity is known, otherwise allocates and registers exactly one fresh
cell wrapping the handle; repeated calls return the same shared cell, and the
registry keeps at most one entry per identity. -/
theorem claim_C5 (st : SysState) (m : MgrIdx) (p : Handle)
    (hm : m < st.mgrs.length) : ResourceForSpec st m p := by
  unfold ResourceForSpec
  exact ⟨fun ci h => resource_for_of_tracked st m p ci h,
         fun h => resource_for_fresh st m p hm h,
         resource_for_idem st m p hm,
         fun h => resource_for_nodup st m p hm h⟩

/-- Witness for claim C5 at a concrete registry. -/
theorem claim_C5_witness : ResourceForSpec stValid 0 5 :=
  claim_C5 stValid 0 5 (by decide)

theorem resource_for_mgrAt_ne (st : SysState) (m o : MgrIdx) (p : Handle)
    (h : m ≠ o) : ((resource_for st m p).1).mgrAt o = st.mgrAt o := by
  unfold resource_for SysState.mgrAt
  cases hl : mapLookup (getIdx st.mgrs m).resources (toId p) with
  | some ci => simp [hl]
  | none =>
      simp only [hl]
      exact getIdx_setIdx_ne _ _ _ _ h

theorem absorb_mgrAt_other (st : SysState) (m o : MgrIdx) :
    (absorb st m o).mgrAt o = ⟨[]⟩ := by
  simp only [absorb, SysState.mgrAt]
  exact getIdx_setIdx_empty _ o

theorem absorb_mgrs_length (st : SysState) (m o : MgrIdx) :
    (absorb st m o).mgrs.length = st.mgrs.length := by
  simp only [absorb]
  rw [setIdx_length, setIdx_length]

/-- Claim C6: `append_child` fails with `ResourceUnavailable` when the child
lacks a mutator or either resource is invalid, fails with `ReturnCode(code)`
and leaves both registries untouched on a non-success engine code, and only
on the engine's success code absorbs the child's registry into the parent's
(draining the child's), re-tracks the child pointer under the parent's
registry, and rebuilds the child's bundle under the parent's factory and
registry. -/
theorem claim_C6 : ∀ (e : Engine) (st : SysState) (sm : StructuralMutator)
    (child : Node), AppendChildSpec e st sm child := by
  intro e st sm child
  unfold AppendChildSpec
  refine ⟨?_, ?_, ?_, ?_, ?_⟩
  · intro hcm
    simp [StructuralMutator.append_child, hcm]
  · intro cm hcm hc
    simp [StructuralMutator.append_child, hcm, hc]
  · intro cm child_p hcm hc hp
    simp [StructuralMutator.append_child, hcm, hc, hp]
  · intro cm child_p parent_p hcm hc hp hcode
    simp only [StructuralMutator.append_child, hcm, hc, hp]
  · intro cm child_p parent_p hcm hc hp hcode hne
    have heq : StructuralMutator.append_child e st sm child =
        ((resource_for (absorb st sm.manager cm.manager) sm.manager child_p).1,
         .ok ⟨sm.cap_factory.build
           (resource_for (absorb st sm.manager cm.manager) sm.manager child_p).2
           sm.manager⟩) := by
      simp only [StructuralMutator.append_child, hcm, hc, hp, hcode]
    refine ⟨heq, ?_, ?_⟩
    · rw [heq]
      show ((resource_for (absorb st sm.manager cm.manager) sm.manager child_p).1).mgrAt
        cm.manager = ⟨[]⟩
      rw [resource_for_mgrAt_ne _ _ _ _ hne]
      exact absorb_mgrAt_other st sm.manager cm.manager
    · intro hm
      rw [heq]
      exact resource_for_lookup _ _ _ (by rw [absorb_mgrs_length]; exact hm)

/-- Witness for claim C3 at a concrete valid resource. -/
theorem claim_C3_witness :
    Node.drop engine0 stValid ⟨(CapabilityFactory.new.with_destructor).build 0 0⟩ =
      (invalidate_resource engine0 stValid 0 0, [5]) ∧
    (invalidate_resource engine0 stValid 0 0).ptrOf 0 = none ∧
    Node.drop engine0 (invalidate_resource engine0 stValid 0 0)
      ⟨(CapabilityFactory.new.with_destructor).build 0 0⟩ =
      (invalidate_resource engine0 stValid 0 0, []) :=
  claim_C3 engine0 stValid 0 0 5 CapabilityFactory.new.with_destructor
    (by decide) (by decide)

theorem free_fst (e : Engine) (st : SysState) (d : NodeDestructor) :
    (NodeDestructor.free e st d).1 =
      invalidate_resource e st d.manager d.resource := by
  unfold NodeDestructor.free
  cases st.ptrOf d.resource <;> rfl

/-- Claim C1, counterexample to the claim as stated: `unlink` is a mutator
capability operation, yet called on an invalidated resource it completes and
returns a `Node` (its return type admits no error at all), rather than
failing with `ResourceUnavailable`. -/
theorem claim_C1_counterexample :
    StructuralMutator.unlinkE engine0 stInvalid smInvalid ≠
      Except.error DoogieError.resourceUnavailable := by
  decide

/-- Claim C1 (amended): an invalidated resource is terminal — no operation of
the system ever writes a handle back into its cell — and every fallible
getter, setter, traverser, or mutator operation through a capability
referencing it fails with `ResourceUnavailable` before touching the foreign
handle, while the two infallible operations (`iter`, `unlink`) complete
without touching it. -/
theorem claim_C1 (e : Engine) (st : SysState) (rc : CellIdx)
    (hrc : rc < st.cells.length) (hinv : st.ptrOf rc = none) :
    StaysInvalidAt e st rc ∧ FailsUnavailableAt e st rc := by
  constructor
  · unfold StaysInvalidAt
    refine ⟨?_, ?_, ?_, ?_, ?_, ?_, ?_, ?_, ?_, ?_, ?_, ?_, ?_, ?_, ?_, ?_⟩
    · exact fun m p => resource_for_ptr_none st m p rc hrc hinv
    · exact fun m rc2 => hinv
    · exact fun m other => hinv
    · exact fun m rc2 => invalidate_ptr_none e st m rc2 rc hinv
    · intro m rc2
      show cellsPtr ((prune e st m rc2).1).cells rc = none
      rw [prune_cells]
      exact hinv
    · intro d
      rw [free_fst]
      exact invalidate_ptr_none e st d.manager d.resource rc hinv
    · intro n
      cases hd : n.capabilities.destruct with
      | none => simpa [Node.drop, hd] using hinv
      | some d =>
          simp only [Node.drop, hd]
          rw [free_fst]
          exact invalidate_ptr_none e st d.manager d.resource rc hinv
    · intro sm
      show cellsPtr ((prune e st sm.manager sm.resource).1).cells rc = none
      rw [prune_cells]
      exact hinv
    · intro sm child
      cases hcm : child.capabilities.mutate with
      | none => simpa [StructuralMutator.append_child, hcm] using hinv
      | some cm =>
          cases hc : st.ptrOf cm.resource with
          | none => simpa [StructuralMutator.append_child, hcm, hc] using hinv
          | some child_p =>
              cases hp : st.ptrOf sm.resource with
              | none =>
                  simpa [StructuralMutator.append_child, hcm, hc, hp] using hinv
              | some parent_p =>
                  cases hn : e.append_child_code parent_p child_p with
                  | zero =>
                      simpa [StructuralMutator.append_child, hcm, hc, hp, hn]
                        using hinv
                  | succ n1 =>
                      cases n1 with
                      | zero =>
                          simp only [StructuralMutator.append_child, hcm, hc, hp, hn]
                          exact resource_for_ptr_none _ _ _ rc hrc hinv
                      | succ k =>
                          simpa [StructuralMutator.append_child, hcm, hc, hp, hn]
                            using hinv
    · intro t
      cases ht : st.ptrOf t.resource with
      | none => simpa [NodeTraverser.next_sibling, ht] using hinv
      | some p =>
          cases hq : e.next p with
          | none => simpa [NodeTraverser.next_sibling, ht, hq] using hinv
          | some q =>
              simp only [NodeTraverser.next_sibling, ht, hq]
              exact resource_for_ptr_none _ _ _ rc hrc hinv
    · intro t
      cases ht : st.ptrOf t.resource with
      | none => simpa [NodeTraverser.prev_sibling, ht] using hinv
      | some p =>
          cases hq : e.prev p with
          | none => simpa [NodeTraverser.prev_sibling, ht, hq] using hinv
          | some q =>
              simp only [NodeTraverser.prev_sibling, ht, hq]
              exact resource_for_ptr_none _ _ _ rc hrc hinv
    · intro t
      cases ht : st.ptrOf t.resource with
      | none => simpa [NodeTraverser.parent, ht] using hinv
      | some p =>
          cases hq : e.parent p with
          | none => simpa [NodeTraverser.parent, ht, hq] using hinv
          | some q =>
              simp only [NodeTraverser.parent, ht, hq]
              exact resource_for_ptr_none _ _ _ rc hrc hinv
    · intro t
      cases ht : st.ptrOf t.resource with
      | none => simpa [NodeTraverser.first_child, ht] using hinv
      | some p =>
          cases hq : e.first_child p with
          | none => simpa [NodeTraverser.first_child, ht, hq] using hinv
          | some q =>
              simp only [NodeTraverser.first_child, ht, hq]
              exact resource_for_ptr_none _ _ _ rc hrc hinv
    · intro t
      cases ht : st.ptrOf t.resource with
      | none => simpa [NodeTraverser.last_child, ht] using hinv
      | some p =>
          cases hq : e.last_child p with
          | none => simpa [NodeTraverser.last_child, ht, hq] using hinv
          | some q =>
              simp only [NodeTraverser.last_child, ht, hq]
              exact resource_for_ptr_none _ _ _ rc hrc hinv
    · intro t
      cases ht : st.ptrOf t.resource with
      | none => simpa [NodeTraverser.itself, ht] using hinv
      | some p =>
          simp only [NodeTraverser.itself, ht]
          exact resource_for_ptr_none _ _ _ rc hrc hinv
    · intro f ty
      show ((resource_for
        { st with mgrs := st.mgrs ++ [⟨[]⟩] } st.mgrs.length (e.new_node ty)).1).ptrOf
          rc = none
      exact resource_for_ptr_none _ _ _ rc hrc hinv
  · unfold FailsUnavailableAt
    refine ⟨?_, ?_, ?_, ?_, ?_, ?_, ?_, ?_, ?_, ?_, ?_, ?_, ?_, ?_, ?_, ?_, ?_,
      ?_, ?_, ?_, ?_, ?_, ?_, ?_, ?_⟩
    · simp [NodeGetter.get_content, hinv]
    · simp [NodeGetter.get_type, hinv]
    · simp [NodeGetter.get_type_string, hinv]
    · simp [NodeGetter.get_start_line, hinv]
    · simp [NodeGetter.get_start_column, hinv]
    · simp [NodeGetter.get_id, hinv]
    · simp [NodeGetter.get_list_type, hinv]
    · simp [NodeGetter.get_delim_type, hinv]
    · simp [NodeGetter.get_heading_level, hinv]
    · simp [NodeGetter.get_url, hinv]
    · simp [NodeGetter.get_title, hinv]
    · simp [NodeGetter.get_fence_info, hinv]
    · intro s
      simp [NodeSetter.set_content, hinv]
    · intro s
      simp [NodeSetter.set_fence_info, hinv]
    · intro m fac
      simp [NodeTraverser.next_sibling, hinv]
    · intro m fac
      simp [NodeTraverser.prev_sibling, hinv]
    · intro m fac
      simp [NodeTraverser.parent, hinv]
    · intro m fac
      simp [NodeTraverser.first_child, hinv]
    · intro m fac
      simp [NodeTraverser.last_child, hinv]
    · intro m fac
      simp [NodeTraverser.itself, hinv]
    · intro m fac
      simp [StructuralMutator.consolidate_text_nodes, hinv]
    · intro m fac child cm child_p hcm hc
      simp [StructuralMutator.append_child, hcm, hc, hinv]
    · intro sm child cm hcm hres
      have hcres : st.ptrOf cm.resource = none := hres ▸ hinv
      simp [StructuralMutator.append_child, hcm, hcres]
    · intro m fac
      simp [NodeTraverser.iter, hinv]
    · intro m fac
      simp [StructuralMutator.unlink, hinv]

/-- Witness for claim C1 at a concrete invalidated, tracked resource. -/
theorem claim_C1_witness :
    StaysInvalidAt engine0 stInvalid 0 ∧ FailsUnavailableAt engine0 stInvalid 0 :=
  claim_C1 engine0 stInvalid 0 (by decide) (by decide)

end Doogie

